import Mathlib

/-!
Verification of the US_university_finder repository core against its
natural-language specification.

The embedding follows the Python sources:
  - `src/src/utils.py`       : clamp, logit, inv_logit
  - `src/src/acceptance.py`  : normalize_scores, acceptance_probability
  - `src/app.py`             : _dedup_results, broaden_search, the
                               document-score call site and the cost
                               aggregation of the results loop.

Python floats are modelled by real numbers, missing values by Option,
Python dicts by association lists, and the search collaborator by an
explicit function argument.  Exceptions are modelled with Except.
-/

namespace UniFinder

/-! ## utils.py -/

/-- Source `utils.clamp`: `max(lo, min(hi, x))`. -/
def clamp (x lo hi : ℝ) : ℝ := max lo (min hi x)

/-- Source `utils.logit`: clamp the input into `[1e-6, 1 - 1e-6]` and take
`log(p / (1 - p))`. -/
noncomputable def logit (p : ℝ) : ℝ :=
  let q := clamp p (1 / 1000000) (1 - 1 / 1000000)
  Real.log (q / (1 - q))

/-- Source `utils.inv_logit`: `1 / (1 + exp(-z))`. -/
noncomputable def inv_logit (z : ℝ) : ℝ := 1 / (1 + Real.exp (-z))

lemma le_clamp (x lo hi : ℝ) : lo ≤ clamp x lo hi := le_max_left _ _

lemma clamp_le (x : ℝ) {lo hi : ℝ} (h : lo ≤ hi) : clamp x lo hi ≤ hi :=
  max_le h (min_le_left _ _)

lemma clamp_eq_of {x lo hi : ℝ} (h1 : lo ≤ x) (h2 : x ≤ hi) : clamp x lo hi = x := by
  unfold clamp
  rw [min_eq_right h2, max_eq_right h1]

lemma clamp_eq_hi {x lo hi : ℝ} (h1 : lo ≤ hi) (h2 : hi ≤ x) : clamp x lo hi = hi := by
  unfold clamp
  rw [min_eq_left h2, max_eq_right h1]

lemma clamp_mono {x y : ℝ} (lo hi : ℝ) (h : x ≤ y) : clamp x lo hi ≤ clamp y lo hi :=
  max_le_max le_rfl (min_le_min le_rfl h)

/-- On a probability strictly between 0 and 1, inv_logit inverts the raw
log-odds map. -/
lemma inv_logit_log {p : ℝ} (h0 : 0 < p) (h1 : p < 1) :
    inv_logit (Real.log (p / (1 - p))) = p := by
  have h1p : 0 < 1 - p := by linarith
  have hpos : 0 < p / (1 - p) := div_pos h0 h1p
  unfold inv_logit
  rw [Real.exp_neg, Real.exp_log hpos]
  rw [inv_div]
  field_simp

lemma inv_logit_mono {z w : ℝ} (h : z ≤ w) : inv_logit z ≤ inv_logit w := by
  unfold inv_logit
  have he : Real.exp (-w) ≤ Real.exp (-z) := Real.exp_le_exp.2 (by linarith)
  have hw : 0 < 1 + Real.exp (-w) := by positivity
  exact one_div_le_one_div_of_le hw (by linarith)

/-- On inputs in `[0.02, 0.98]` the logit function needs no interior clamping. -/
lemma logit_eq_of {p : ℝ} (h1 : 0.02 ≤ p) (h2 : p ≤ 0.98) :
    logit p = Real.log (p / (1 - p)) := by
  unfold logit
  rw [clamp_eq_of (le_trans (by norm_num) h1) (h2.trans (by norm_num))]

/-! ## acceptance.py -/

/-- The record returned by `normalize_scores`: GPA and LOR/SOP scores are
always present, GRE and IELTS are dropped (None) when absent or nonpositive. -/
structure Normalized where
  gpa : ℝ
  gre : Option ℝ
  ielts : Option ℝ
  lor : ℝ

/-- Source `acceptance.normalize_scores`: fixed linear bands clamped to
`[0,1]`; GRE and IELTS kept only when present and strictly positive. -/
noncomputable def normalize_scores (cgpa : ℝ) (gre ielts : Option ℝ) (lor_sop : ℝ) :
    Normalized where
  gpa := clamp ((cgpa - 2.5) / (4.0 - 2.5)) 0 1
  gre :=
    match gre with
    | some g => if 0 < g then some (clamp ((g - 290) / (340 - 290)) 0 1) else none
    | none => none
  ielts :=
    match ielts with
    | some i => if 0 < i then some (clamp ((i - 5.5) / (9.0 - 5.5)) 0 1) else none
    | none => none
  lor := clamp lor_sop 0 1

/-- Source `acceptance.acceptance_probability` lines 27-36: the feats and
weights lists built from the present signals (GPA 0.4, GRE 0.35, IELTS 0.15,
LOR/SOP 0.10), as feature-weight pairs. -/
noncomputable def featsWeights (n : Normalized) : List (ℝ × ℝ) :=
  ([(n.gpa, 0.4)] : List (ℝ × ℝ))
    ++ (match n.gre with | some g => ([(g, 0.35)] : List (ℝ × ℝ)) | none => [])
    ++ (match n.ielts with | some i => ([(i, 0.15)] : List (ℝ × ℝ)) | none => [])
    ++ ([(n.lor, 0.10)] : List (ℝ × ℝ))

/-- Source `acceptance.acceptance_probability` lines 39-40: the weighted
average of the present normalized signals. -/
noncomputable def match_score (n : Normalized) : ℝ :=
  ((featsWeights n).map (fun fw => fw.1 * fw.2)).sum
    / ((featsWeights n).map Prod.snd).sum

/-- The log-odds shift applied to a baseline rate for a given match score:
clamp the baseline to `[0.02, 0.98]`, shift its log-odds by
`1.6 * (match - 0.5)` and clamp the resulting probability to `[0.01, 0.99]`.
This is the body of lines 21-22 and 42-45 of `acceptance_probability`. -/
noncomputable def acc_of (b m : ℝ) : ℝ :=
  clamp (inv_logit (logit (clamp b 0.02 0.98) + 1.6 * (m - 0.5))) 0.01 0.99

/-- Source `acceptance.acceptance_probability`: baseline defaults to 0.5 when
absent; the empty-features early return of line 37-38 is kept even though the
GPA feature is always present. -/
noncomputable def acceptance_probability (baseline_rate : Option ℝ) (cgpa : ℝ)
    (gre ielts : Option ℝ) (lor_sop : ℝ) : ℝ :=
  let base := clamp (baseline_rate.getD 0.5) 0.02 0.98
  let n := normalize_scores cgpa gre ielts lor_sop
  match featsWeights n with
  | [] => base
  | _ :: _ => clamp (inv_logit (logit base + 1.6 * (match_score n - 0.5))) 0.01 0.99

/-- The feature list always contains the GPA entry, so the early return for an
empty feature list is dead code. -/
lemma featsWeights_ne_nil (n : Normalized) : featsWeights n ≠ [] := by
  obtain ⟨gpa, gre, ielts, lor⟩ := n
  cases gre <;> cases ielts <;> simp [featsWeights]

lemma acceptance_probability_eq (b : Option ℝ) (c : ℝ) (g i : Option ℝ) (l : ℝ) :
    acceptance_probability b c g i l
      = acc_of (b.getD 0.5) (match_score (normalize_scores c g i l)) := by
  unfold acceptance_probability acc_of
  cases h : featsWeights (normalize_scores c g i l) with
  | nil => exact absurd h (featsWeights_ne_nil _)
  | cons x xs => simp [h]

lemma acc_of_bounds (b m : ℝ) : 0.01 ≤ acc_of b m ∧ acc_of b m ≤ 0.99 := by
  unfold acc_of
  exact ⟨le_clamp _ _ _, clamp_le _ (by norm_num)⟩

/-- C1: for every baseline admission rate (an absent rate defaulting to 0.5)
and every applicant profile whose weighted-average normalized match score is
exactly 0.5, acceptance_probability returns the baseline clamped to
`[0.02, 0.98]`. -/
theorem C1_acceptance_identity (b : Option ℝ) (c : ℝ) (g i : Option ℝ) (l : ℝ)
    (h : match_score (normalize_scores c g i l) = 0.5) :
    acceptance_probability b c g i l = clamp (b.getD 0.5) 0.02 0.98 := by
  rw [acceptance_probability_eq, h]
  unfold acc_of
  set base := clamp (b.getD 0.5) 0.02 0.98 with hb
  have h1 : (0.02 : ℝ) ≤ base := le_clamp _ _ _
  have h2 : base ≤ 0.98 := clamp_le _ (by norm_num)
  rw [show (1.6 : ℝ) * (0.5 - 0.5) = 0 by norm_num, add_zero]
  rw [logit_eq_of h1 h2, inv_logit_log (by linarith) (by linarith)]
  exact clamp_eq_of (by linarith) (by linarith)

/-- Witness for C1: baseline 0.30 with every normalized sub-score equal to 0.5
(CGPA 3.25, GRE 315, IELTS 7.25, document score 0.5) yields exactly 0.30. -/
theorem C1_acceptance_identity_witness :
    acceptance_probability (some 0.3) 3.25 (some 315) (some 7.25) 0.5 = 0.3 := by
  have h : match_score (normalize_scores 3.25 (some 315) (some 7.25) 0.5) = 0.5 := by
    simp only [normalize_scores, match_score, featsWeights]
    norm_num [clamp, min_def, max_def]
  have h2 := C1_acceptance_identity (some 0.3) 3.25 (some 315) (some 7.25) 0.5 h
  rw [h2]
  simp only [Option.getD_some]
  exact clamp_eq_of (by norm_num) (by norm_num)

/-- C4: for every baseline rate (including 0, 1 and absent) and every
applicant profile, the returned probability lies in `[0.01, 0.99]` and is
never exactly 0 or 1. -/
theorem C4_probability_bounds (b : Option ℝ) (c : ℝ) (g i : Option ℝ) (l : ℝ) :
    0.01 ≤ acceptance_probability b c g i l ∧
    acceptance_probability b c g i l ≤ 0.99 ∧
    acceptance_probability b c g i l ≠ 0 ∧
    acceptance_probability b c g i l ≠ 1 := by
  rw [acceptance_probability_eq]
  obtain ⟨h1, h2⟩ := acc_of_bounds (b.getD 0.5) (match_score (normalize_scores c g i l))
  refine ⟨h1, h2, ?_, ?_⟩ <;> intro h <;> rw [h] at h1 h2 <;> norm_num at h1 h2

lemma acc_of_mono (b : ℝ) {m₁ m₂ : ℝ} (h : m₁ ≤ m₂) : acc_of b m₁ ≤ acc_of b m₂ := by
  unfold acc_of
  exact clamp_mono _ _ (inv_logit_mono (by linarith))

/-- Once the shifted probability reaches the upper clamp bound, the estimator
reports exactly 0.99: with baseline 0.98 this happens whenever the match score
is at least 0.99. -/
lemma acc_of_saturates {m : ℝ} (hm : 0.99 ≤ m) : acc_of 0.98 m = 0.99 := by
  unfold acc_of
  rw [clamp_eq_of (show (0.02:ℝ) ≤ 0.98 by norm_num) le_rfl]
  rw [logit_eq_of (by norm_num) le_rfl]
  rw [show (0.98:ℝ) / (1 - 0.98) = 49 by norm_num]
  have h99 : inv_logit (Real.log 99) = 0.99 := by
    have h := inv_logit_log (show (0:ℝ) < 0.99 by norm_num) (show (0.99:ℝ) < 1 by norm_num)
    rwa [show (0.99:ℝ) / (1 - 0.99) = 99 by norm_num] at h
  have key : Real.log 99 - Real.log 49 ≤ 0.784 := by
    have hdiv : Real.log ((99:ℝ) / 49) = Real.log 99 - Real.log 49 :=
      Real.log_div (by norm_num) (by norm_num)
    have hsplit : Real.log ((99:ℝ) / 49) = Real.log 2 + Real.log (99 / 98) := by
      rw [show (99:ℝ) / 49 = 2 * (99 / 98) by norm_num]
      exact Real.log_mul (by norm_num) (by norm_num)
    have h2 : Real.log 2 < 0.6931471808 := Real.log_two_lt_d9
    have h98 : Real.log ((99:ℝ) / 98) ≤ 99 / 98 - 1 :=
      Real.log_le_sub_one_of_pos (by norm_num)
    rw [← hdiv, hsplit]
    linarith
  have hz : Real.log 99 ≤ Real.log 49 + 1.6 * (m - 0.5) := by linarith
  exact clamp_eq_hi (by norm_num) (h99 ▸ inv_logit_mono hz)

/-- C2 (amended): increasing any single normalized signal with the other
signals and their presence fixed strictly increases the match score, and the
returned probability is monotone nondecreasing in the match score (the final
clamp to `[0.01, 0.99]` can make the increase non-strict); the probability
returned by acceptance_probability is exactly the clamped log-odds shift
applied to the match score. -/
theorem C2_monotonicity (n : Normalized) (x y : ℝ) (hxy : x < y)
    (b : ℝ) (m₁ m₂ : ℝ) (hm : m₁ ≤ m₂)
    (bb : Option ℝ) (cc : ℝ) (gg ii : Option ℝ) (ll : ℝ) :
    match_score { n with gpa := x } < match_score { n with gpa := y } ∧
    match_score { n with gre := some x } < match_score { n with gre := some y } ∧
    match_score { n with ielts := some x } < match_score { n with ielts := some y } ∧
    match_score { n with lor := x } < match_score { n with lor := y } ∧
    acc_of b m₁ ≤ acc_of b m₂ ∧
    acceptance_probability bb cc gg ii ll
      = acc_of (bb.getD 0.5) (match_score (normalize_scores cc gg ii ll)) := by
  obtain ⟨gpa, gre, ielts, lor⟩ := n
  refine ⟨?_, ?_, ?_, ?_, acc_of_mono b hm, acceptance_probability_eq bb cc gg ii ll⟩ <;>
    cases gre <;> cases ielts <;>
    · simp only [match_score, featsWeights, List.cons_append, List.nil_append,
        List.map_cons, List.map_nil, List.sum_cons, List.sum_nil]
      rw [div_lt_div_iff_of_pos_right (by norm_num)]
      linarith

/-- Witness for C2 (amended), instantiated at concrete signal values. -/
theorem C2_monotonicity_witness :
    match_score ⟨0.25, none, none, 0.5⟩ < match_score ⟨0.75, none, none, 0.5⟩ ∧
    match_score ⟨0.25, some 0.25, none, 0.5⟩ < match_score ⟨0.25, some 0.75, none, 0.5⟩ ∧
    match_score ⟨0.25, none, some 0.25, 0.5⟩ < match_score ⟨0.25, none, some 0.75, 0.5⟩ ∧
    match_score ⟨0.25, none, none, 0.25⟩ < match_score ⟨0.25, none, none, 0.75⟩ ∧
    acc_of 0.5 0.3 ≤ acc_of 0.5 0.4 ∧
    acceptance_probability none 3 none none 0.5
      = acc_of ((none : Option ℝ).getD 0.5) (match_score (normalize_scores 3 none none 0.5)) :=
  C2_monotonicity ⟨0.25, none, none, 0.5⟩ 0.25 0.75 (by norm_num) 0.5 0.3 0.4 (by norm_num)
    none 3 none none 0.5

/-- Counterexample to C2 as stated: with baseline 0.98 and a strong profile
(CGPA 4, GRE 340, IELTS 9), raising the normalized document score from 0.9 to
1 strictly increases that signal, yet the returned probability stays at the
0.99 clamp, so the probability does not strictly increase. -/
theorem C2_counterexample :
    (normalize_scores 4 (some 340) (some 9) 0.9).lor
      < (normalize_scores 4 (some 340) (some 9) 1).lor ∧
    acceptance_probability (some 0.98) 4 (some 340) (some 9) 0.9 = 0.99 ∧
    acceptance_probability (some 0.98) 4 (some 340) (some 9) 1 = 0.99 := by
  refine ⟨?_, ?_, ?_⟩
  · simp only [normalize_scores]
    norm_num [clamp, min_def, max_def]
  · have h : match_score (normalize_scores 4 (some 340) (some 9) 0.9) = 0.99 := by
      simp only [normalize_scores, match_score, featsWeights]
      norm_num [clamp, min_def, max_def]
    rw [acceptance_probability_eq, h, Option.getD_some, acc_of_saturates le_rfl]
  · have h : match_score (normalize_scores 4 (some 340) (some 9) 1) = 1 := by
      simp only [normalize_scores, match_score, featsWeights]
      norm_num [clamp, min_def, max_def]
    rw [acceptance_probability_eq, h, Option.getD_some, acc_of_saturates (by norm_num)]

/-! ## app.py: result records, deduplication and broadened search -/

/-- The fields of an institution row used by the broadened-search helpers,
from the dict returned by the search collaborator; every field may be absent. -/
structure InstitutionRecord where
  name : Option String
  city : Option String
  state : Option String
  url : Option String
deriving DecidableEq

/-- The dedup key of `app._dedup_results`: the pair
`(r.get("school.name"), r.get("school.state"))`. -/
def recKey (r : InstitutionRecord) : Option String × Option String := (r.name, r.state)

/-- The loop body of `app._dedup_results`, with the seen-key set made
explicit. -/
def dedupAux (seen : List (Option String × Option String)) :
    List InstitutionRecord → List InstitutionRecord
  | [] => []
  | r :: rs =>
    if recKey r ∈ seen then dedupAux seen rs
    else r :: dedupAux (recKey r :: seen) rs

/-- Source `app._dedup_results`: keep the first record for each
(name, state) key, in order. -/
def dedup_results (rows : List InstitutionRecord) : List InstitutionRecord :=
  dedupAux [] rows

/-- The query sent to `ScorecardClient.search` by the broadened-search loops
in `app.py` (the fields the app sets; the page is explicit). -/
structure Query where
  state : Option String
  city : Option String
  zip_radius : Option (String × String)
  cip4 : Option Int
  title_contains : Option String
  page : Nat
deriving DecidableEq

/-- Python `(course or "").strip().lower()`. -/
def pyKey (s : String) : String := s.trim.toLower

/-- Source `app.broaden_search` lines 72-74: the related-code candidates of
the bundle table for the course key, skipping the code already used. -/
def cipCandidates (bundles : List (String × List Int)) (key : String)
    (cip4 : Option Int) : List Int :=
  match bundles.lookup key with
  | some cs => cs.filter (fun c => decide (some c ≠ cip4))
  | none => []

/-- Source `app.broaden_search` line 89: synonyms for the course, with the
raw course text as the fallback when the table has no entry; an absent or
empty course yields no candidates. -/
def synonymsFor (syns : List (String × List String)) (course : Option String) :
    List String :=
  match course with
  | none => []
  | some c =>
    if c = "" then []
    else
      match syns.lookup (pyKey c) with
      | some l => l
      | none => [c]

/-- The inner page loop of `app.broaden_search` (lines 77-82 and 91-96):
fetch up to `fuel` pages starting at page `p`, stopping after a page shorter
than the full page size of 100; returns the accumulated rows and the trace of
issued queries. -/
def fetchPagesAux (search : Query → List InstitutionRecord) (mk : Nat → Query) :
    Nat → Nat → List InstitutionRecord × List Query
  | 0, _ => ([], [])
  | fuel + 1, p =>
    let q := mk p
    let rs := search q
    if rs.length < 100 then (rs, [q])
    else
      let rest := fetchPagesAux search mk fuel (p + 1)
      (rs ++ rest.1, q :: rest.2)

/-- The outer candidate loop of `app.broaden_search`: run the page loop for
each candidate in order, concatenating rows and traces. -/
def runCands {κ : Type} (search : Query → List InstitutionRecord)
    (mk : κ → Nat → Query) (max_pages : Nat) : List κ → List InstitutionRecord × List Query
  | [] => ([], [])
  | c :: cs =>
    let t := fetchPagesAux search (mk c) max_pages 0
    let rest := runCands search mk max_pages cs
    (t.1 ++ rest.1, t.2 ++ rest.2)

/-- Source `app.broaden_search`, instrumented with the list of queries issued
to the search collaborator.  The bundle and synonym tables are explicit
arguments (in the repository both fall back to empty tables, see
`CIP_BUNDLES` and `TITLE_SYNONYMS` below). -/
def broaden_search_trace (search : Query → List InstitutionRecord)
    (state city : Option String) (zip_radius : Option (String × String))
    (course : Option String) (first_results : List InstitutionRecord)
    (cip4 : Option Int) (bundles : List (String × List Int))
    (syns : List (String × List String)) (max_pages : Nat) :
    List InstitutionRecord × List Query :=
  if 20 ≤ first_results.length then (first_results, [])
  else
    let key := pyKey (course.getD "")
    let cips := cipCandidates bundles key cip4
    let t1 := runCands search (fun c p => ⟨state, city, zip_radius, some c, none, p⟩)
      max_pages cips
    let rows1 := dedup_results (first_results ++ t1.1)
    if 20 ≤ rows1.length then (rows1, t1.2)
    else
      let syl := synonymsFor syns course
      let t2 := runCands search (fun kw p => ⟨state, city, zip_radius, none, some kw, p⟩)
        max_pages syl
      (dedup_results (rows1 ++ t2.1), t1.2 ++ t2.2)

/-- Source `app.broaden_search`: the rows it returns. -/
def broaden_search (search : Query → List InstitutionRecord)
    (state city : Option String) (zip_radius : Option (String × String))
    (course : Option String) (first_results : List InstitutionRecord)
    (cip4 : Option Int) (bundles : List (String × List Int))
    (syns : List (String × List String)) (max_pages : Nat) :
    List InstitutionRecord :=
  (broaden_search_trace search state city zip_radius course first_results cip4
    bundles syns max_pages).1

/-- The bundle table of the repository: `src.cip_map` defines no
`CIP_BUNDLES`, so the fallback import in `app.py` lines 37-41 binds it to the
empty dict. -/
def CIP_BUNDLES : List (String × List Int) := []

/-- The synonym table of the repository: `src.cip_map` defines no
`TITLE_SYNONYMS`, so the fallback import in `app.py` lines 37-41 binds it to
the empty dict. -/
def TITLE_SYNONYMS : List (String × List String) := []

lemma dedupAux_sublist (l : List InstitutionRecord) :
    ∀ seen, List.Sublist (dedupAux seen l) l := by
  induction l with
  | nil => intro seen; simp [dedupAux]
  | cons r rs ih =>
    intro seen
    by_cases h : recKey r ∈ seen
    · simp only [dedupAux, if_pos h]
      exact (ih seen).cons r
    · simp only [dedupAux, if_neg h]
      exact (ih _).cons₂ r

lemma dedupAux_not_mem_seen (l : List InstitutionRecord) :
    ∀ seen r, r ∈ dedupAux seen l → recKey r ∉ seen := by
  induction l with
  | nil => intro seen r hr; simp [dedupAux] at hr
  | cons a rs ih =>
    intro seen r hr
    by_cases h : recKey a ∈ seen
    · rw [dedupAux, if_pos h] at hr
      exact ih seen r hr
    · rw [dedupAux, if_neg h] at hr
      rcases List.mem_cons.1 hr with hra | hr2
      · exact hra ▸ h
      · exact fun hs => ih _ r hr2 (List.mem_cons_of_mem _ hs)

lemma dedupAux_pairwise (l : List InstitutionRecord) :
    ∀ seen, (dedupAux seen l).Pairwise (fun a b => recKey a ≠ recKey b) := by
  induction l with
  | nil => intro seen; simp [dedupAux]
  | cons a rs ih =>
    intro seen
    by_cases h : recKey a ∈ seen
    · rw [dedupAux, if_pos h]
      exact ih seen
    · rw [dedupAux, if_neg h]
      refine List.pairwise_cons.2 ⟨fun b hb he => ?_, ih _⟩
      exact dedupAux_not_mem_seen rs _ b hb (he ▸ List.mem_cons_self _ _)

lemma dedupAux_find? (l : List InstitutionRecord) :
    ∀ seen k, k ∉ seen →
      (dedupAux seen l).find? (fun r => decide (recKey r = k))
        = l.find? (fun r => decide (recKey r = k)) := by
  induction l with
  | nil => intro seen k _; simp [dedupAux]
  | cons a rs ih =>
    intro seen k hk
    by_cases h : recKey a ∈ seen
    · have hak : recKey a ≠ k := fun he => hk (he ▸ h)
      rw [dedupAux, if_pos h]
      rw [List.find?_cons_of_neg _ (by simp [hak])]
      exact ih seen k hk
    · rw [dedupAux, if_neg h]
      by_cases hak : recKey a = k
      · rw [List.find?_cons_of_pos _ (by simp [hak]),
          List.find?_cons_of_pos _ (by simp [hak])]
      · rw [List.find?_cons_of_neg _ (by simp [hak]),
          List.find?_cons_of_neg _ (by simp [hak])]
        refine ih _ k ?_
        simp only [List.mem_cons, not_or]
        exact ⟨fun he => hak he.symm, hk⟩

/-- C7: dedup returns a stable subsequence of its input, its records have
pairwise distinct (name, state) keys, and for every key the record it keeps
is exactly the first record of the input with that key. -/
theorem C7_dedup_first_occurrence (rows : List InstitutionRecord) :
    List.Sublist (dedup_results rows) rows ∧
    (dedup_results rows).Pairwise (fun a b => recKey a ≠ recKey b) ∧
    ∀ k, (dedup_results rows).find? (fun r => decide (recKey r = k))
        = rows.find? (fun r => decide (recKey r = k)) :=
  ⟨dedupAux_sublist rows [], dedupAux_pairwise rows [],
    fun k => dedupAux_find? rows [] k (List.not_mem_nil k)⟩

/-- Counterexample to C3 as stated: a first-page input of 20 copies of the
same record is returned unchanged by broaden_search, so the returned sequence
violates the (name, state) uniqueness invariant. -/
theorem C3_counterexample :
    broaden_search (fun _ => []) none none none (some "data science")
      (List.replicate 20 ⟨some "A", none, some "TX", none⟩) none [] [] 3
      = List.replicate 20 ⟨some "A", none, some "TX", none⟩ ∧
    ¬ (List.replicate 20 (⟨some "A", none, some "TX", none⟩ : InstitutionRecord)).Pairwise
        (fun a b => recKey a ≠ recKey b) := by
  constructor
  · rfl
  · intro hp
    have h20 : List.replicate 20 (⟨some "A", none, some "TX", none⟩ : InstitutionRecord)
        = ⟨some "A", none, some "TX", none⟩
          :: List.replicate 19 ⟨some "A", none, some "TX", none⟩ := rfl
    rw [h20, List.pairwise_cons] at hp
    exact hp.1 _ (List.mem_replicate.mpr ⟨by norm_num, rfl⟩) rfl

/-- C3 (amended): whenever the first-page input has fewer than 20 entries,
the sequence returned by broaden_search has pairwise distinct (name, state)
keys; an input of 20 or more entries is returned unchanged, duplicates
included. -/
theorem C3_broaden_dedup (search : Query → List InstitutionRecord)
    (state city : Option String) (zr : Option (String × String))
    (course : Option String) (first_results : List InstitutionRecord)
    (cip4 : Option Int) (bundles : List (String × List Int))
    (syns : List (String × List String)) (mp : Nat)
    (h : first_results.length < 20) :
    (broaden_search search state city zr course first_results cip4 bundles
      syns mp).Pairwise (fun a b => recKey a ≠ recKey b) := by
  unfold broaden_search broaden_search_trace
  rw [if_neg (by omega)]
  dsimp only
  split
  · exact dedupAux_pairwise _ _
  · exact dedupAux_pairwise _ _

/-- Witness for C3 (amended): an empty first page yields a key-distinct
result. -/
theorem C3_broaden_dedup_witness :
    (broaden_search (fun _ => []) none none none none [] none [] [] 3).Pairwise
      (fun a b => recKey a ≠ recKey b) :=
  C3_broaden_dedup (fun _ => []) none none none none [] none [] [] 3 (by simp)

/-- C5: a first-page input with at least 20 entries is returned unchanged and
no query is issued to the search collaborator. -/
theorem C5_short_circuit (search : Query → List InstitutionRecord)
    (state city : Option String) (zr : Option (String × String))
    (course : Option String) (first_results : List InstitutionRecord)
    (cip4 : Option Int) (bundles : List (String × List Int))
    (syns : List (String × List String)) (mp : Nat)
    (h : 20 ≤ first_results.length) :
    broaden_search_trace search state city zr course first_results cip4
      bundles syns mp = (first_results, []) := by
  unfold broaden_search_trace
  rw [if_pos h]

/-- Witness for C5 at a first page of 25 entries. -/
theorem C5_short_circuit_witness :
    broaden_search_trace (fun _ => []) none none none (some "data science")
      (List.replicate 25 ⟨some "A", none, some "TX", none⟩) none [] [] 3
      = (List.replicate 25 ⟨some "A", none, some "TX", none⟩, []) :=
  C5_short_circuit (fun _ => []) none none none (some "data science")
    (List.replicate 25 ⟨some "A", none, some "TX", none⟩) none [] [] 3 (by simp)

lemma fetchPagesAux_trace_le (search : Query → List InstitutionRecord)
    (mk : Nat → Query) : ∀ fuel p, (fetchPagesAux search mk fuel p).2.length ≤ fuel := by
  intro fuel
  induction fuel with
  | zero => intro p; simp [fetchPagesAux]
  | succ n ih =>
    intro p
    simp only [fetchPagesAux]
    split
    · simp
    · simpa using Nat.succ_le_succ (ih (p + 1))

lemma runCands_trace_le {κ : Type} (search : Query → List InstitutionRecord)
    (mk : κ → Nat → Query) (mp : Nat) :
    ∀ cands : List κ, (runCands search mk mp cands).2.length ≤ mp * cands.length := by
  intro cands
  induction cands with
  | nil => simp [runCands]
  | cons c cs ih =>
    simp only [runCands, List.length_append, List.length_cons]
    calc (fetchPagesAux search (mk c) mp 0).2.length
          + (runCands search mk mp cs).2.length
        ≤ mp + mp * cs.length :=
          Nat.add_le_add (fetchPagesAux_trace_le _ _ _ _) ih
      _ = mp * (cs.length + 1) := by rw [Nat.mul_succ, Nat.add_comm]

/-- C6: against a collaborator whose pages are always shorter than the full
page size of 100, broaden_search terminates (it is a total function) and
issues at most max_pages queries per candidate, over the bundle candidates
and the synonym candidates together.  The bound in fact holds for every
collaborator. -/
theorem C6_call_bound (search : Query → List InstitutionRecord)
    (state city : Option String) (zr : Option (String × String))
    (course : Option String) (first_results : List InstitutionRecord)
    (cip4 : Option Int) (bundles : List (String × List Int))
    (syns : List (String × List String)) (mp : Nat)
    (_hshort : ∀ q, (search q).length < 100) :
    (broaden_search_trace search state city zr course first_results cip4
        bundles syns mp).2.length
      ≤ mp * ((cipCandidates bundles (pyKey (course.getD "")) cip4).length
              + (synonymsFor syns course).length) := by
  unfold broaden_search_trace
  split
  · simp
  · dsimp only
    split
    · exact le_trans (runCands_trace_le _ _ _ _)
        (Nat.mul_le_mul_left _ (Nat.le_add_right _ _))
    · rw [List.length_append, Nat.mul_add]
      exact Nat.add_le_add (runCands_trace_le _ _ _ _) (runCands_trace_le _ _ _ _)

/-- Witness for C6 with an always-empty collaborator stub. -/
theorem C6_call_bound_witness :
    (broaden_search_trace (fun _ => []) none none none (some "x") [] none
        [] [] 3).2.length
      ≤ 3 * ((cipCandidates [] (pyKey ((some "x" : Option String).getD "")) none).length
              + (synonymsFor [] (some "x")).length) :=
  C6_call_bound (fun _ => []) none none none (some "x") [] none [] [] 3
    (fun q => by simp)

lemma fetchPagesAux_trace_mem (search : Query → List InstitutionRecord)
    (mk : Nat → Query) {P : Query → Prop} (hP : ∀ p, P (mk p)) :
    ∀ fuel p q, q ∈ (fetchPagesAux search mk fuel p).2 → P q := by
  intro fuel
  induction fuel with
  | zero => intro p q hq; simp [fetchPagesAux] at hq
  | succ n ih =>
    intro p q hq
    simp only [fetchPagesAux] at hq
    split at hq
    · rw [List.mem_singleton] at hq
      exact hq ▸ hP p
    · rcases List.mem_cons.1 hq with hq1 | hq2
      · exact hq1 ▸ hP p
      · exact ih (p + 1) q hq2

lemma runCands_trace_mem {κ : Type} (search : Query → List InstitutionRecord)
    (mk : κ → Nat → Query) (mp : Nat) {P : Query → Prop}
    (hP : ∀ c p, P (mk c p)) :
    ∀ (cands : List κ) q, q ∈ (runCands search mk mp cands).2 → P q := by
  intro cands
  induction cands with
  | nil => intro q hq; simp [runCands] at hq
  | cons c cs ih =>
    intro q hq
    simp only [runCands] at hq
    rcases List.mem_append.1 hq with hq1 | hq2
    · exact fetchPagesAux_trace_mem search (mk c) (hP c) mp 0 q hq1
    · exact ih q hq2

/-- Counterexample to C8 as stated: with both tables empty and the course
"data science", broaden_search still issues a title-contains query with the
raw course text (the synonym-tier fallback of line 89 of app.py), so the
synonym tier is not skipped. -/
theorem C8_counterexample :
    (broaden_search_trace (fun _ => []) none none none (some "data science")
        [] none [] [] 3).2
      = [⟨none, none, none, none, some "data science", 0⟩] ∧
    (broaden_search_trace (fun _ => []) none none none (some "data science")
        [] none [] [] 3).2 ≠ [] := by
  have c1 : (broaden_search_trace (fun _ => []) none none none
      (some "data science") [] none [] [] 3).2
      = [⟨none, none, none, none, some "data science", 0⟩] := rfl
  exact ⟨c1, by rw [c1]; simp⟩

/-- C8 (amended): when the bundle table has no entry for the course key the
bundle tier is skipped (no query of the trace carries a classification code);
the synonym tier is skipped only when the course is absent or empty, in which
case no query at all is issued; when the synonym table has no entry for a
nonempty course, the tier falls back to the raw course text as its single
keyword candidate.  No case raises an error: the function is total. -/
theorem C8_tier_skipping (search : Query → List InstitutionRecord)
    (state city : Option String) (zr : Option (String × String))
    (course : Option String) (first_results : List InstitutionRecord)
    (cip4 : Option Int) (bundles : List (String × List Int))
    (syns : List (String × List String)) (mp : Nat)
    (hb : bundles.lookup (pyKey (course.getD "")) = none) :
    cipCandidates bundles (pyKey (course.getD "")) cip4 = [] ∧
    (∀ q ∈ (broaden_search_trace search state city zr course first_results
        cip4 bundles syns mp).2, q.cip4 = none) ∧
    ((course = none ∨ course = some "") →
      (broaden_search_trace search state city zr course first_results cip4
        bundles syns mp).2 = []) ∧
    (∀ c : String, course = some c → c ≠ "" → syns.lookup (pyKey c) = none →
      synonymsFor syns course = [c]) := by
  have ha : cipCandidates bundles (pyKey (course.getD "")) cip4 = [] := by
    simp [cipCandidates, hb]
  refine ⟨ha, ?_, ?_, ?_⟩
  · intro q hq
    simp only [broaden_search_trace] at hq
    rw [ha] at hq
    split at hq
    · simp at hq
    · simp only [runCands] at hq
      split at hq
      · simp at hq
      · have hq2 : q ∈ (runCands search
            (fun kw p => (⟨state, city, zr, none, some kw, p⟩ : Query)) mp
            (synonymsFor syns course)).2 := hq
        exact @runCands_trace_mem String search
          (fun kw p => (⟨state, city, zr, none, some kw, p⟩ : Query)) mp
          (fun q => q.cip4 = none) (fun kw p => rfl)
          (synonymsFor syns course) q hq2
  · intro hcourse
    have hs : synonymsFor syns course = [] := by
      rcases hcourse with h | h <;> simp [synonymsFor, h]
    simp only [broaden_search_trace]
    rw [ha, hs]
    split
    · rfl
    · simp only [runCands]
      split <;> rfl
  · intro c hc hne hlk
    subst hc
    simp [synonymsFor, hne, hlk]

/-- Witness for C8 (amended) with empty tables and course "data science". -/
theorem C8_tier_skipping_witness :
    cipCandidates [] (pyKey ((some "data science" : Option String).getD "")) none = [] ∧
    (∀ q ∈ (broaden_search_trace (fun _ => []) none none none
        (some "data science") [] none [] [] 3).2, q.cip4 = none) ∧
    ((some "data science" = (none : Option String) ∨
        (some "data science" : Option String) = some "") →
      (broaden_search_trace (fun _ => []) none none none (some "data science")
        [] none [] [] 3).2 = []) ∧
    (∀ c : String, (some "data science" : Option String) = some c → c ≠ "" →
      ([] : List (String × List String)).lookup (pyKey c) = none →
      synonymsFor [] (some "data science") = [c]) :=
  C8_tier_skipping (fun _ => []) none none none (some "data science") [] none
    [] [] 3 rfl

/-! ## app.py lines 188-193: the document-score call site

The uploaded document is abstracted to its byte string, the scoring
collaborator to a function that either returns a score with diagnostics or
fails; a Python exception is modelled as the error case of Except, which
propagates to the caller because the call site has no try/except. -/

/-- Source `app.py` lines 188-193: initialise the score to 0.5 with empty
diagnostics, then, only when a document was uploaded, replace both with the
result of the scoring collaborator.  A failure of the collaborator is not
caught at this call site. -/
noncomputable def lorStage (upload : Option String)
    (score_document : String → Except String (ℝ × List (String × String))) :
    Except String (ℝ × List (String × String)) :=
  match upload with
  | none => Except.ok (0.5, [])
  | some d => score_document d

/-- Counterexample to C9 as stated: an uploaded document whose scoring fails
makes the whole stage fail (the exception propagates and aborts the search)
instead of degrading to the neutral score 0.5 with empty diagnostics. -/
theorem C9_counterexample :
    lorStage (some "doc") (fun _ => Except.error "boom") = Except.error "boom" ∧
    lorStage (some "doc") (fun _ => Except.error "boom")
      ≠ Except.ok (0.5, []) := by
  refine ⟨rfl, ?_⟩
  intro h
  rw [show lorStage (some "doc") (fun _ => Except.error "boom")
      = Except.error "boom" from rfl] at h
  exact Except.noConfusion h

/-- C9 (amended): the neutral default score 0.5 with empty diagnostics is
used exactly when no document is uploaded; when a document is uploaded and
the scoring collaborator fails, the failure propagates out of the stage and
the search aborts. -/
theorem C9_failure_propagates
    (sd : String → Except String (ℝ × List (String × String))) (d e : String)
    (hfail : sd d = Except.error e) :
    lorStage none sd = Except.ok (0.5, []) ∧
    lorStage (some d) sd = Except.error e := by
  exact ⟨rfl, hfail⟩

/-- Witness for C9 (amended) with an always-failing collaborator stub. -/
theorem C9_failure_propagates_witness :
    lorStage none (fun _ => Except.error "x") = Except.ok (0.5, []) ∧
    lorStage (some "d") (fun _ => Except.error "x") = Except.error "x" :=
  C9_failure_propagates (fun _ => Except.error "x") "d" "x" rfl

/-! ## app.py lines 203-214: cost aggregation of the results loop -/

/-- The raw cost fields of an institution row; a missing field is None. -/
structure CostFields where
  in_state : Option ℚ
  out_of_state : Option ℚ
  roomboard : Option ℚ
  other_on_campus : Option ℚ
  booksupply : Option ℚ
deriving DecidableEq

/-- The derived cost figures of a result row. -/
structure CostRow where
  tuition : ℚ
  living : ℚ
  books : ℚ
  per_year : ℚ
  two_year : ℚ
  meets_budget : Bool
deriving DecidableEq

/-- Source `app.py` lines 203-214: missing fields become 0 (`or 0`), tuition
prefers a truthy (nonzero) out-of-state value, living cost is room plus other
on-campus, the yearly total excludes books, the two-year total doubles the
yearly one, and the budget flag compares the two-year total to the budget. -/
def cost_row (r : CostFields) (budget : ℚ) : CostRow :=
  let in_t := r.in_state.getD 0
  let out_t := r.out_of_state.getD 0
  let room := r.roomboard.getD 0
  let other := r.other_on_campus.getD 0
  let books := r.booksupply.getD 0
  let tuition := if out_t ≠ 0 then out_t else in_t
  let living := room + other
  let per_year := tuition + living
  { tuition := tuition
    living := living
    books := books
    per_year := per_year
    two_year := 2 * per_year
    meets_budget := decide (2 * per_year ≤ budget) }

/-- The tuition preference rule in the words of the spec: out-of-state when
positive, in-state otherwise.  Modelled from the spec for comparison with the
truthiness rule of the code. -/
def tuition_spec (in_t out_t : ℚ) : ℚ := if 0 < out_t then out_t else in_t

/-- Counterexample to C10 as stated: a negative out-of-state tuition is not
positive, so the spec rule picks the in-state value, but the code tests
Python truthiness (nonzero) and keeps the negative out-of-state value. -/
theorem C10_counterexample :
    (cost_row ⟨some 7, some (-1), some 0, some 0, some 0⟩ 0).tuition = -1 ∧
    tuition_spec 7 (-1) = 7 ∧
    (cost_row ⟨some 7, some (-1), some 0, some 0, some 0⟩ 0).tuition
      ≠ tuition_spec 7 (-1) := by
  refine ⟨?_, ?_, ?_⟩ <;> norm_num [cost_row, tuition_spec]

/-- C10 (amended): with missing fields as 0, tuition is the out-of-state
value when it is nonzero (Python truthiness) and the in-state value
otherwise; living is room plus other on-campus; the yearly total is tuition
plus living; the two-year total doubles it; the budget flag holds iff the
two-year total is at most the budget; books are reported separately and do
not affect the totals or the budget flag; and the concrete example of the
spec (in-state 20000, out-of-state 35000, room 10000, other 2000, books 1200,
budget 90000) evaluates to tuition 35000, living 12000, per-year 47000,
two-year 94000, over budget. -/
theorem C10_cost_arithmetic (r : CostFields) (budget b : ℚ) :
    (cost_row r budget).tuition
      = (if r.out_of_state.getD 0 ≠ 0 then r.out_of_state.getD 0
         else r.in_state.getD 0) ∧
    (cost_row r budget).living
      = r.roomboard.getD 0 + r.other_on_campus.getD 0 ∧
    (cost_row r budget).per_year
      = (cost_row r budget).tuition + (cost_row r budget).living ∧
    (cost_row r budget).two_year = 2 * (cost_row r budget).per_year ∧
    ((cost_row r budget).meets_budget = true
      ↔ (cost_row r budget).two_year ≤ budget) ∧
    (cost_row r budget).books = r.booksupply.getD 0 ∧
    (cost_row { r with booksupply := some b } budget).per_year
      = (cost_row r budget).per_year ∧
    (cost_row { r with booksupply := some b } budget).two_year
      = (cost_row r budget).two_year ∧
    (cost_row { r with booksupply := some b } budget).meets_budget
      = (cost_row r budget).meets_budget ∧
    cost_row ⟨some 20000, some 35000, some 10000, some 2000, some 1200⟩ 90000
      = ⟨35000, 12000, 1200, 47000, 94000, false⟩ := by
  refine ⟨rfl, rfl, rfl, rfl, ?_, rfl, rfl, rfl, rfl, ?_⟩
  · simp [cost_row]
  · simp only [cost_row, CostRow.mk.injEq]
    norm_num

end UniFinder
